import Mathlib

/-!
Verification of the crypto core of the aptos-ts-sdk repository:
`src/core/crypto/singleKey.ts` (AnyPublicKey, AnySignature) and the
multi-key module (MultiKey, MultiKeySignature, bitCount, createBitmap).

Byte strings are modelled as `List Nat` whose well-formed entries are < 256
(the TypeScript sources use `Uint8Array`).  Fallible constructors return
`Except String` carrying the exact error message thrown by the source;
deserializers return `Option` (`none` = decode failure).
-/

/-- Modelled from the spec: `SigningScheme.SingleKey` / `SigningScheme.MultiKey`
authentication-scheme discriminants (the `SigningScheme` enum is a collaborator
declared outside `src/`); the exact values play no role in the claims. -/
def SigningScheme.SingleKey : Nat := 2

/-- Modelled from the spec: the MultiKey authentication-scheme discriminant. -/
def SigningScheme.MultiKey : Nat := 3

/-- Modelled from the spec §3: SchemeVariant is the closed set {Ed25519=0, Secp256k1=1}
(the `AnyPublicKeyVariant` enum is declared outside `src/`). -/
def AnyPublicKeyVariant.Ed25519 : Nat := 0

/-- Modelled from the spec §3: the Secp256k1 variant discriminant. -/
def AnyPublicKeyVariant.Secp256k1 : Nat := 1

/-- Modelled from the spec §3: signature-side SchemeVariant, Ed25519 = 0
(the `AnySignatureVariant` enum is declared outside `src/`). -/
def AnySignatureVariant.Ed25519 : Nat := 0

/-- Modelled from the spec §3: signature-side SchemeVariant, Secp256k1 = 1. -/
def AnySignatureVariant.Secp256k1 : Nat := 1

/-- Modelled from the spec §4.2: the tag written by `AnySignature.serialize` lives in
the signing-scheme discriminant space and must match the SchemeVariant encoding of
§3 (`SigningSchemeInput` is an enum declared outside `src/`). -/
def SigningSchemeInput.Ed25519 : Nat := 0

/-- Modelled from the spec §4.2: the Secp256k1-ECDSA signing-scheme tag, matching
SchemeVariant's Secp256k1 = 1. -/
def SigningSchemeInput.Secp256k1Ecdsa : Nat := 1

/-! ## Canonical codec (BCS collaborator, modelled from the spec §6) -/

/-- Auxiliary ULEB128 encoder with explicit fuel (the fuel is an artifact making the
definition structurally recursive; `fuel = n` always suffices since the value shrinks
by a factor of 128 while the fuel drops by 1). -/
def uleb128EncodeAux : Nat → Nat → List Nat
  | 0, n => [n % 128]
  | fuel + 1, n => if n < 128 then [n] else (n % 128 + 128) :: uleb128EncodeAux fuel (n / 128)

/-- Modelled from the spec §6: the Canonical Codec's variable-length unsigned integer
encoder (LEB128-style, smallest form): 7 value bits per byte, little-endian groups,
high bit set on every byte except the last. -/
def uleb128Encode (n : Nat) : List Nat := uleb128EncodeAux n n

/-- ULEB128 decoder over a byte list, returning the value and the unconsumed rest. -/
def uleb128DecodeCore : List Nat → Option (Nat × List Nat)
  | [] => none
  | b :: rest =>
    if b < 128 then some (b, rest)
    else
      match uleb128DecodeCore rest with
      | some (m, r) => some (b - 128 + 128 * m, r)
      | none => none

/-- Largest value representable as a u32. -/
def U32_MAX : Nat := 4294967295

/-- Modelled from the spec: `Deserializer.deserializeUleb128AsU32` — decode a ULEB128
value, failing when the value exceeds the u32 range. -/
def deserializeUleb128AsU32 (input : List Nat) : Option (Nat × List Nat) :=
  match uleb128DecodeCore input with
  | some (v, r) => if v ≤ U32_MAX then some (v, r) else none
  | none => none

/-- Read exactly `n` bytes from the input, failing when the input is shorter. -/
def readBytesN : Nat → List Nat → Option (List Nat × List Nat)
  | 0, input => some ([], input)
  | _ + 1, [] => none
  | n + 1, b :: rest =>
    match readBytesN n rest with
    | some (bs, r) => some (b :: bs, r)
    | none => none

/-- Modelled from the spec §6: `Serializer.serializeBytes` — a length-prefixed byte
string (ULEB128 length, then the raw bytes). -/
def serializeBytes (b : List Nat) : List Nat := uleb128Encode b.length ++ b

/-- Modelled from the spec §6: `Deserializer.deserializeBytes` — read a ULEB128
length and then exactly that many bytes. -/
def deserializeBytes (input : List Nat) : Option (List Nat × List Nat) :=
  match deserializeUleb128AsU32 input with
  | some (len, r) => readBytesN len r
  | none => none

/-- Modelled from the spec §6: `Serializer.serializeU8` — a single byte. -/
def serializeU8 (n : Nat) : List Nat := [n % 256]

/-- Modelled from the spec §6: `Deserializer.deserializeU8` — read a single byte. -/
def deserializeU8 : List Nat → Option (Nat × List Nat)
  | [] => none
  | b :: rest => some (b, rest)

/-- Read `count` elements with the element decoder `dec`
(`Deserializer.deserializeVector`'s element loop, and the explicit signature-reading
loop of `MultiKeySignature.deserialize`). -/
def readElems {α : Type} (dec : List Nat → Option (α × List Nat)) :
    Nat → List Nat → Option (List α × List Nat)
  | 0, input => some ([], input)
  | k + 1, input =>
    match dec input with
    | none => none
    | some (a, rest) =>
      match readElems dec k rest with
      | none => none
      | some (as, r) => some (a :: as, r)

/-! ## Primitive key and signature types (collaborators, modelled from the spec §2/§6:
one concrete type per scheme, each a fixed-length byte string) -/

/-- Modelled from the spec §8: an Ed25519 public key is 32 raw bytes. -/
def ED25519_PUBLIC_KEY_LENGTH : Nat := 32

/-- Modelled from the spec §6: fixed Ed25519 signature length. -/
def ED25519_SIGNATURE_LENGTH : Nat := 64

/-- Modelled from the spec §6: fixed Secp256k1 public key length. -/
def SECP256K1_PUBLIC_KEY_LENGTH : Nat := 65

/-- Modelled from the spec §6: fixed Secp256k1 signature length. -/
def SECP256K1_SIGNATURE_LENGTH : Nat := 64

/-- The union type `PublicKeyInput = Ed25519PublicKey | Secp256k1PublicKey` of
`singleKey.ts`; each primitive key is its raw fixed-length byte string. -/
inductive PublicKeyInput : Type
  | ed25519 (key : List Nat)
  | secp256k1 (key : List Nat)
deriving DecidableEq

/-- The union type `SignatureInput = Ed25519Signature | Secp256k1Signature` of
`singleKey.ts`; each primitive signature is its raw fixed-length byte string. -/
inductive SignatureInput : Type
  | ed25519 (data : List Nat)
  | secp256k1 (data : List Nat)
deriving DecidableEq

/-- Modelled from the spec §6: each primitive key self-serializes to its
fixed-length byte string. -/
def PublicKeyInput.serialize : PublicKeyInput → List Nat
  | .ed25519 key => key
  | .secp256k1 key => key

/-- Modelled from the spec §6: each primitive signature self-serializes to its
fixed-length byte string. -/
def SignatureInput.serialize : SignatureInput → List Nat
  | .ed25519 data => data
  | .secp256k1 data => data

/-- Modelled from the spec §6: `Ed25519PublicKey.deserialize` reads the fixed
key length. -/
def Ed25519PublicKey.deserialize (input : List Nat) : Option (PublicKeyInput × List Nat) :=
  match readBytesN ED25519_PUBLIC_KEY_LENGTH input with
  | some (bs, r) => some (.ed25519 bs, r)
  | none => none

/-- Modelled from the spec §6: `Secp256k1PublicKey.deserialize` reads the fixed
key length. -/
def Secp256k1PublicKey.deserialize (input : List Nat) : Option (PublicKeyInput × List Nat) :=
  match readBytesN SECP256K1_PUBLIC_KEY_LENGTH input with
  | some (bs, r) => some (.secp256k1 bs, r)
  | none => none

/-- Modelled from the spec §6: `Ed25519Signature.deserialize` reads the fixed
signature length. -/
def Ed25519Signature.deserialize (input : List Nat) : Option (SignatureInput × List Nat) :=
  match readBytesN ED25519_SIGNATURE_LENGTH input with
  | some (bs, r) => some (.ed25519 bs, r)
  | none => none

/-- Modelled from the spec §6: `Secp256k1Signature.deserialize` reads the fixed
signature length. -/
def Secp256k1Signature.deserialize (input : List Nat) : Option (SignatureInput × List Nat) :=
  match readBytesN SECP256K1_SIGNATURE_LENGTH input with
  | some (bs, r) => some (.secp256k1 bs, r)
  | none => none

/-! ## AnyPublicKey (singleKey.ts) -/

/-- `AnyPublicKey` of `singleKey.ts`: an inner primitive public key together with the
index of the underlying enum variant.  The TypeScript constructor is `protected`
and stores both fields unchecked. -/
structure AnyPublicKey : Type where
  publicKey : PublicKeyInput
  variant : Nat
deriving DecidableEq

/-- `AnyPublicKey.fromPublicKey`: tag the primitive key with the variant matching its
concrete type (the source's `instanceof` chain; the sum type is closed, so the
`Unsupported public key type` branch is unreachable). -/
def AnyPublicKey.fromPublicKey (publicKey : PublicKeyInput) : AnyPublicKey :=
  match publicKey with
  | .ed25519 _ => ⟨publicKey, AnyPublicKeyVariant.Ed25519⟩
  | .secp256k1 _ => ⟨publicKey, AnyPublicKeyVariant.Secp256k1⟩

/-- `AnyPublicKey.serialize`: ULEB128 of the *stored* variant, then the inner key's
own canonical encoding. -/
def AnyPublicKey.serialize (k : AnyPublicKey) : List Nat :=
  uleb128Encode k.variant ++ k.publicKey.serialize

/-- `AnyPublicKey.deserialize`: read the variant tag, dispatch to the matching
primitive decoder, fail on an unknown tag. -/
def AnyPublicKey.deserialize (input : List Nat) : Option (AnyPublicKey × List Nat) :=
  match deserializeUleb128AsU32 input with
  | none => none
  | some (variantIndex, r) =>
    if variantIndex = AnyPublicKeyVariant.Ed25519 then
      match Ed25519PublicKey.deserialize r with
      | some (publicKey, r2) => some (⟨publicKey, variantIndex⟩, r2)
      | none => none
    else if variantIndex = AnyPublicKeyVariant.Secp256k1 then
      match Secp256k1PublicKey.deserialize r with
      | some (publicKey, r2) => some (⟨publicKey, variantIndex⟩, r2)
      | none => none
    else none

/-! ## AnySignature (singleKey.ts) -/

/-- `AnySignature` of `singleKey.ts`: an inner primitive signature together with the
index of the underlying enum variant.  The TypeScript constructor is `public` and
stores both fields unchecked. -/
structure AnySignature : Type where
  signature : SignatureInput
  variant : Nat
deriving DecidableEq

/-- `AnySignature.fromSignature`: tag the primitive signature with the variant
matching its concrete type. -/
def AnySignature.fromSignature (signature : SignatureInput) : AnySignature :=
  match signature with
  | .ed25519 _ => ⟨signature, AnySignatureVariant.Ed25519⟩
  | .secp256k1 _ => ⟨signature, AnySignatureVariant.Secp256k1⟩

/-- `AnySignature.serialize`: the source dispatches on the *concrete type* of the
inner signature (`instanceof` chain) and writes the corresponding
`SigningSchemeInput` tag — it does not read the stored `variant` field. -/
def AnySignature.serialize (s : AnySignature) : List Nat :=
  match s.signature with
  | .ed25519 _ => uleb128Encode SigningSchemeInput.Ed25519 ++ s.signature.serialize
  | .secp256k1 _ => uleb128Encode SigningSchemeInput.Secp256k1Ecdsa ++ s.signature.serialize

/-- `AnySignature.deserialize`: read the variant tag, compare against
`AnySignatureVariant`, dispatch to the matching primitive decoder, fail on an
unknown tag. -/
def AnySignature.deserialize (input : List Nat) : Option (AnySignature × List Nat) :=
  match deserializeUleb128AsU32 input with
  | none => none
  | some (variantIndex, r) =>
    if variantIndex = AnySignatureVariant.Ed25519 then
      match Ed25519Signature.deserialize r with
      | some (signature, r2) => some (⟨signature, variantIndex⟩, r2)
      | none => none
    else if variantIndex = AnySignatureVariant.Secp256k1 then
      match Secp256k1Signature.deserialize r with
      | some (signature, r2) => some (⟨signature, variantIndex⟩, r2)
      | none => none
    else none

/-- Modelled from the spec §2: the underlying primitive verification — dispatch to
the scheme's verifier when the concrete key and signature schemes agree, `false`
otherwise.  The per-scheme verifiers are opaque collaborators, passed as arguments. -/
def primVerify (edVerify secpVerify : List Nat → List Nat → List Nat → Bool)
    (publicKey : PublicKeyInput) (message : List Nat) (signature : SignatureInput) : Bool :=
  match publicKey, signature with
  | .ed25519 pk, .ed25519 sg => edVerify pk message sg
  | .secp256k1 pk, .secp256k1 sg => secpVerify pk message sg
  | _, _ => false

/-- `AnyPublicKey.verifySignature`: the source tests `this.publicKey instanceof
Ed25519PublicKey && signature.signature instanceof Ed25519Signature` (and the
Secp256k1 pair), delegating to the primitive verifier on a match and returning
`false` otherwise.  The opaque per-scheme verifiers are arguments. -/
def AnyPublicKey.verifySignature (edVerify secpVerify : List Nat → List Nat → List Nat → Bool)
    (k : AnyPublicKey) (message : List Nat) (signature : AnySignature) : Bool :=
  primVerify edVerify secpVerify k.publicKey message signature.signature

/-! ## bitCount (multi-key module) -/

/-- `bitCount` from the multi-key module: the SWAR popcount over JavaScript 32-bit
integer operations.  On the byte-valued inputs the callers supply, every
intermediate stays below 2^31, where JavaScript's signed shifts and bitwise ops
agree with plain division and `Nat.land`/truncation; the final `>> 24` follows the
ToInt32 coercion of the product, modelled by `% 0x100000000`. -/
def bitCount (byte : Nat) : Nat :=
  let n := byte
  let n := n - Nat.land (n / 2) 0x55555555
  let n := Nat.land n 0x33333333 + Nat.land (n / 4) 0x33333333
  Nat.land (n + n / 16) 0xf0f0f0f * 0x1010101 % 0x100000000 / 0x1000000

/-- Mathematical population count (fuel-structured so it reduces in the kernel;
`fuel = n` always suffices since the value at least halves each step). -/
def natPopCountAux : Nat → Nat → Nat
  | 0, _ => 0
  | _ + 1, 0 => 0
  | fuel + 1, n => n % 2 + natPopCountAux fuel (n / 2)

/-- Mathematical population count of a natural number. -/
def natPopCount (n : Nat) : Nat := natPopCountAux n n

/-- The signature count the multi-key module derives from a bitmap:
`bitmap.reduce((acc, byte) => acc + bitCount(byte), 0)`. -/
def bitmapSignatureCount (bitmap : List Nat) : Nat :=
  bitmap.foldl (fun acc byte => acc + bitCount byte) 0

/-! ## MultiKey (multi-key module) -/

/-- `MultiKey`: an ordered list of `AnyPublicKey` and the required-signatures
threshold; both fields are validated by the constructor `MultiKey.create` below. -/
structure MultiKey : Type where
  publicKeys : List AnyPublicKey
  signaturesRequired : Nat
deriving DecidableEq

/-- The union type `PublicKeyInput = Ed25519PublicKey | Secp256k1PublicKey |
AnyPublicKey` of the multi-key module. -/
inductive MultiKeyPublicKeyInput : Type
  | prim (k : PublicKeyInput)
  | any (k : AnyPublicKey)
deriving DecidableEq

/-- The constructor's normalization: `publicKey instanceof AnyPublicKey ? publicKey
: AnyPublicKey.fromPublicKey(publicKey)`. -/
def normalizePublicKey : MultiKeyPublicKeyInput → AnyPublicKey
  | .prim k => AnyPublicKey.fromPublicKey k
  | .any k => k

/-- The `MultiKey` constructor: validates `signaturesRequired ≥ 1`, then
`publicKeys.length ≥ signaturesRequired`, then normalizes every key to
`AnyPublicKey`; error strings are the source's messages. -/
def MultiKey.create (publicKeys : List MultiKeyPublicKeyInput) (signaturesRequired : Nat) :
    Except String MultiKey :=
  if signaturesRequired < 1 then
    .error ("The number of required signatures needs to be greater then 0")
  else if publicKeys.length < signaturesRequired then
    .error ("Provided " ++ Nat.repr publicKeys.length ++
      " public keys is smaller than the " ++ Nat.repr signaturesRequired ++
      " required signatures")
  else
    .ok ⟨publicKeys.map normalizePublicKey, signaturesRequired⟩

/-- Loop body of `MultiKey.createBitmap`'s `forEach`: `n` is
`this.publicKeys.length`, `idx` the running array position, `seen` the duplicate
check set, `bitmap` the four-byte accumulator.  Out-of-range byte reads yield 0 and
out-of-range writes are dropped, matching `Uint8Array` indexing. -/
def MultiKey.createBitmapAux (n : Nat) : List Nat → Nat → List Nat → List Nat →
    Except String (List Nat)
  | [], _, _, bitmap => .ok bitmap
  | bit :: bits, idx, seen, bitmap =>
    if idx + 1 > n then
      .error ("Signature index " ++ Nat.repr (idx + 1) ++
        " is out of public keys range, " ++ Nat.repr n ++ ".")
    else if seen.contains bit then
      .error ("Duplicate bit " ++ Nat.repr bit ++ " detected.")
    else
      let byteOffset := bit / 8
      let byte := bitmap.getD byteOffset 0
      let byte := Nat.lor byte (Nat.shiftRight 128 (bit % 8))
      MultiKey.createBitmapAux n bits (idx + 1) (bit :: seen) (bitmap.set byteOffset byte)

/-- `MultiKey.createBitmap`: build a 4-byte bitmap from the given bit positions,
starting from `[0, 0, 0, 0]`; note the source's range check compares the *array
position* `idx + 1` against `this.publicKeys.length`, not the bit value. -/
def MultiKey.createBitmap (m : MultiKey) (bits : List Nat) : Except String (List Nat) :=
  MultiKey.createBitmapAux m.publicKeys.length bits 0 [] [0, 0, 0, 0]

/-- `MultiKey.serialize`: a length-prefixed vector of the keys followed by the
threshold as a single byte. -/
def MultiKey.serialize (m : MultiKey) : List Nat :=
  uleb128Encode m.publicKeys.length ++ (m.publicKeys.map AnyPublicKey.serialize).flatten ++
    serializeU8 m.signaturesRequired

/-- `MultiKey.deserialize`: read the key vector and the threshold byte, then run the
validating constructor (`new MultiKey`). -/
def MultiKey.deserialize (input : List Nat) : Option (MultiKey × List Nat) :=
  match deserializeUleb128AsU32 input with
  | none => none
  | some (n, r) =>
    match readElems AnyPublicKey.deserialize n r with
    | none => none
    | some (keys, r2) =>
      match deserializeU8 r2 with
      | none => none
      | some (signaturesRequired, r3) =>
        match MultiKey.create (keys.map .any) signaturesRequired with
        | .ok m => some (m, r3)
        | .error _ => none

/-! ## MultiKeySignature (multi-key module) -/

/-- `MultiKeySignature.BITMAP_LEN`. -/
def BITMAP_LEN : Nat := 4

/-- `MultiKeySignature.MAX_SIGNATURES_SUPPORTED = BITMAP_LEN * 8`. -/
def MAX_SIGNATURES_SUPPORTED : Nat := BITMAP_LEN * 8

/-- `MultiKeySignature`: the ordered signatures and the 4-byte bitmap; both fields
are validated by the constructor `MultiKeySignature.create` below. -/
structure MultiKeySignature : Type where
  signatures : List AnySignature
  bitmap : List Nat
deriving DecidableEq

/-- The union type `SignatureInput = Ed25519Signature | Secp256k1Signature |
AnySignature` of the multi-key module. -/
inductive MultiKeySignatureInput : Type
  | prim (s : SignatureInput)
  | any (s : AnySignature)
deriving DecidableEq

/-- The constructor's normalization: `signature instanceof AnySignature ? signature
: AnySignature.fromSignature(signature)`. -/
def normalizeSignature : MultiKeySignatureInput → AnySignature
  | .prim s => AnySignature.fromSignature s
  | .any s => s

/-- The `bitmap` constructor argument: either a raw `Uint8Array` or a `number[]`
of bit positions. -/
inductive BitmapInput : Type
  | raw (bytes : List Nat)
  | bits (positions : List Nat)
deriving DecidableEq

/-- Loop body of the static `MultiKeySignature.createBitmap`'s `forEach`: unlike the
MultiKey variant, the range check compares the *bit value* against
`MAX_SIGNATURES_SUPPORTED`. -/
def MultiKeySignature.createBitmapAux : List Nat → List Nat → List Nat →
    Except String (List Nat)
  | [], _, bitmap => .ok bitmap
  | bit :: bits, seen, bitmap =>
    if MAX_SIGNATURES_SUPPORTED ≤ bit then
      .error ("Cannot have a signature larger than " ++
        Nat.repr (MAX_SIGNATURES_SUPPORTED - 1) ++ ".")
    else if seen.contains bit then
      .error ("Duplicate bits detected.")
    else
      let byteOffset := bit / 8
      let byte := bitmap.getD byteOffset 0
      let byte := Nat.lor byte (Nat.shiftRight 128 (bit % 8))
      MultiKeySignature.createBitmapAux bits (bit :: seen) (bitmap.set byteOffset byte)

/-- Static `MultiKeySignature.createBitmap`: build the 4-byte bitmap from bit
positions 0..31. -/
def MultiKeySignature.createBitmap (bits : List Nat) : Except String (List Nat) :=
  MultiKeySignature.createBitmapAux bits [] [0, 0, 0, 0]

/-- The source's signature-count-mismatch error message. -/
def signatureCountMismatchMsg (nSignatures nProvided : Nat) : String :=
  "Expecting " ++ Nat.repr nSignatures ++ " signatures from the bitmap, but got " ++
    Nat.repr nProvided

/-- The `MultiKeySignature` constructor: checks `signatures.length ≤ 32`, normalizes
the signatures, resolves the bitmap argument (building it from positions, or
checking a raw bitmap's length is 4), and finally cross-checks that the bitmap's
popcount equals the number of signatures. -/
def MultiKeySignature.create (signatures : List MultiKeySignatureInput)
    (bitmap : BitmapInput) : Except String MultiKeySignature :=
  if MAX_SIGNATURES_SUPPORTED < signatures.length then
    .error ("The number of signatures cannot be greater than " ++
      Nat.repr MAX_SIGNATURES_SUPPORTED)
  else
    let sigs := signatures.map normalizeSignature
    let resolved : Except String (List Nat) :=
      match bitmap with
      | .bits positions => MultiKeySignature.createBitmap positions
      | .raw bytes =>
        if bytes.length ≠ BITMAP_LEN then
          .error ("\x22bitmap\x22 length should be " ++ Nat.repr BITMAP_LEN)
        else .ok bytes
    match resolved with
    | .error e => .error e
    | .ok bm =>
      let nSignatures := bitmapSignatureCount bm
      if nSignatures ≠ sigs.length then
        .error (signatureCountMismatchMsg nSignatures sigs.length)
      else .ok ⟨sigs, bm⟩

/-- `MultiKeySignature.serialize`: the bitmap as a length-prefixed byte string, then
each signature's canonical encoding in order; no explicit count field. -/
def MultiKeySignature.serialize (ms : MultiKeySignature) : List Nat :=
  serializeBytes ms.bitmap ++ (ms.signatures.map AnySignature.serialize).flatten

/-- `MultiKeySignature.deserialize`: read the bitmap, derive the expected count as
the sum of `bitCount` over its bytes, read exactly that many `AnySignature`
entries, then run the validating constructor. -/
def MultiKeySignature.deserialize (input : List Nat) : Option (MultiKeySignature × List Nat) :=
  match deserializeBytes input with
  | none => none
  | some (bitmap, r) =>
    let nSignatures := bitmapSignatureCount bitmap
    match readElems AnySignature.deserialize nSignatures r with
    | none => none
    | some (signatures, r2) =>
      match MultiKeySignature.create (signatures.map .any) (.raw bitmap) with
      | .ok ms => some (ms, r2)
      | .error _ => none

/-! ## Well-formedness predicates -/

/-- A primitive public key has its scheme's fixed length and byte-valued entries. -/
def PublicKeyInput.lenOk : PublicKeyInput → Bool
  | .ed25519 key => key.length == ED25519_PUBLIC_KEY_LENGTH && key.all (· < 256)
  | .secp256k1 key => key.length == SECP256K1_PUBLIC_KEY_LENGTH && key.all (· < 256)

/-- A primitive signature has its scheme's fixed length and byte-valued entries. -/
def SignatureInput.lenOk : SignatureInput → Bool
  | .ed25519 data => data.length == ED25519_SIGNATURE_LENGTH && data.all (· < 256)
  | .secp256k1 data => data.length == SECP256K1_SIGNATURE_LENGTH && data.all (· < 256)

/-- The pairing invariant of `AnyPublicKey`: the stored variant matches the concrete
type of the inner key. -/
def AnyPublicKey.pairedOk (k : AnyPublicKey) : Bool :=
  match k.publicKey with
  | .ed25519 _ => k.variant == AnyPublicKeyVariant.Ed25519
  | .secp256k1 _ => k.variant == AnyPublicKeyVariant.Secp256k1

/-- The pairing invariant of `AnySignature`: the stored variant matches the concrete
type of the inner signature. -/
def AnySignature.pairedOk (s : AnySignature) : Bool :=
  match s.signature with
  | .ed25519 _ => s.variant == AnySignatureVariant.Ed25519
  | .secp256k1 _ => s.variant == AnySignatureVariant.Secp256k1

/-- A well-formed `AnyPublicKey`: paired variant and well-formed inner key. -/
def AnyPublicKey.wellFormed (k : AnyPublicKey) : Bool :=
  k.pairedOk && k.publicKey.lenOk

/-- A well-formed `AnySignature`: paired variant and well-formed inner signature. -/
def AnySignature.wellFormed (s : AnySignature) : Bool :=
  s.pairedOk && s.signature.lenOk

/-- A well-formed `MultiKey`: the constructor's invariants
(`1 ≤ signaturesRequired ≤ publicKeys.length`), well-formed keys, and
representability of the serialized fields (threshold fits a u8, count fits a u32). -/
def MultiKey.wellFormed (m : MultiKey) : Bool :=
  1 ≤ m.signaturesRequired && m.signaturesRequired ≤ m.publicKeys.length &&
    m.signaturesRequired ≤ 255 && m.publicKeys.length ≤ U32_MAX &&
    m.publicKeys.all AnyPublicKey.wellFormed

/-- A well-formed `MultiKeySignature`: the constructor's invariants (4-byte bitmap,
popcount equal to the signature count, at most 32 signatures) with byte-valued
bitmap entries and well-formed signatures. -/
def MultiKeySignature.wellFormed (ms : MultiKeySignature) : Bool :=
  ms.bitmap.length == BITMAP_LEN && ms.bitmap.all (· < 256) &&
    bitmapSignatureCount ms.bitmap == ms.signatures.length &&
    ms.signatures.length ≤ MAX_SIGNATURES_SUPPORTED &&
    ms.signatures.all AnySignature.wellFormed

/-! ## Instances and concrete values -/

instance {ε α : Type} [DecidableEq ε] [DecidableEq α] : DecidableEq (Except ε α) := fun a b =>
  match a, b with
  | .error e1, .error e2 =>
    if h : e1 = e2 then isTrue (congrArg Except.error h)
    else isFalse (fun hc => h (by cases hc; rfl))
  | .error _, .ok _ => isFalse (fun hc => Except.noConfusion hc)
  | .ok _, .error _ => isFalse (fun hc => Except.noConfusion hc)
  | .ok x, .ok y =>
    if h : x = y then isTrue (congrArg Except.ok h)
    else isFalse (fun hc => h (by cases hc; rfl))

/-- A concrete well-formed Ed25519 `AnyPublicKey`. -/
def edKeyA : AnyPublicKey := ⟨.ed25519 (List.replicate 32 1), AnyPublicKeyVariant.Ed25519⟩

/-- A concrete well-formed Ed25519 `AnySignature`. -/
def edSigA : AnySignature := ⟨.ed25519 (List.replicate 64 2), AnySignatureVariant.Ed25519⟩

/-- A second concrete well-formed Ed25519 `AnySignature`. -/
def edSigB : AnySignature := ⟨.ed25519 (List.replicate 64 3), AnySignatureVariant.Ed25519⟩

/-- A concrete 2-of-3 `MultiKey`. -/
def multiKey3 : MultiKey := ⟨List.replicate 3 edKeyA, 2⟩

/-- A concrete well-formed `MultiKeySignature`: one signature, bitmap bit 0 set. -/
def msigA : MultiKeySignature := ⟨[edSigA], [128, 0, 0, 0]⟩

/-- An `AnySignature` built through the public unchecked constructor with a variant
that does not match the wrapped signature's concrete type (an Ed25519 signature
tagged with the Secp256k1 variant). -/
def illPairedSignature : AnySignature :=
  ⟨.ed25519 (List.replicate 64 0), AnySignatureVariant.Secp256k1⟩

/-! ## Codec lemmas -/

/-- The ULEB128 encoder's fuel is irrelevant as long as it dominates the value. -/
theorem uleb128EncodeAux_congr : ∀ f1 f2 n, n ≤ f1 → n ≤ f2 →
    uleb128EncodeAux f1 n = uleb128EncodeAux f2 n := by
  intro f1
  induction f1 with
  | zero =>
    intro f2 n h1 _
    have hn : n = 0 := Nat.le_zero.mp h1
    subst hn
    cases f2 with
    | zero => rfl
    | succ k => simp [uleb128EncodeAux]
  | succ f ih =>
    intro f2 n h1 h2
    cases f2 with
    | zero =>
      have hn : n = 0 := Nat.le_zero.mp h2
      subst hn
      simp [uleb128EncodeAux]
    | succ k =>
      simp only [uleb128EncodeAux]
      by_cases h : n < 128
      · simp [h]
      · simp only [h, if_false]
        congr 1
        exact ih k (n / 128) (by omega) (by omega)

/-- Standard unfolding of the ULEB128 encoder. -/
theorem uleb128Encode_eq (n : Nat) :
    uleb128Encode n =
      if n < 128 then [n] else (n % 128 + 128) :: uleb128Encode (n / 128) := by
  unfold uleb128Encode
  cases n with
  | zero => simp [uleb128EncodeAux]
  | succ m =>
    simp only [uleb128EncodeAux]
    by_cases h : m + 1 < 128
    · simp [h]
    · simp only [h, if_false]
      congr 1
      exact uleb128EncodeAux_congr m ((m + 1) / 128) ((m + 1) / 128) (by omega) le_rfl

/-- ULEB128 decoding inverts encoding and leaves trailing input untouched. -/
theorem uleb128DecodeCore_encode (n : Nat) : ∀ rest : List Nat,
    uleb128DecodeCore (uleb128Encode n ++ rest) = some (n, rest) := by
  induction n using Nat.strong_induction_on with
  | _ n ih =>
    intro rest
    rw [uleb128Encode_eq]
    by_cases h : n < 128
    · simp [h, uleb128DecodeCore]
    · have hge : ¬ (n % 128 + 128 < 128) := by omega
      simp only [h, if_false, List.cons_append, uleb128DecodeCore, hge]
      rw [ih (n / 128) (by omega) rest]
      simp only [Option.some.injEq, Prod.mk.injEq, and_true]
      omega

/-- The u32-guarded ULEB128 decoder inverts encoding for u32-range values. -/
theorem deserializeUleb128AsU32_encode (n : Nat) (h : n ≤ U32_MAX) (rest : List Nat) :
    deserializeUleb128AsU32 (uleb128Encode n ++ rest) = some (n, rest) := by
  simp [deserializeUleb128AsU32, uleb128DecodeCore_encode, h]

/-- Reading back exactly the bytes that were appended. -/
theorem readBytesN_append : ∀ bs rest : List Nat,
    readBytesN bs.length (bs ++ rest) = some (bs, rest) := by
  intro bs
  induction bs with
  | nil => intro rest; rfl
  | cons b tl ih => intro rest; simp [readBytesN, ih]

/-- Length-prefixed byte strings round-trip. -/
theorem deserializeBytes_serializeBytes (b rest : List Nat) (h : b.length ≤ U32_MAX) :
    deserializeBytes (serializeBytes b ++ rest) = some (b, rest) := by
  simp only [deserializeBytes, serializeBytes, List.append_assoc,
    deserializeUleb128AsU32_encode _ h, readBytesN_append]

/-! ## Round-trip lemmas for the wrapper types -/

/-- A well-formed `AnyPublicKey` deserializes from its own serialization. -/
theorem anyPublicKey_deserialize_serialize (k : AnyPublicKey) (rest : List Nat)
    (h : k.wellFormed = true) :
    AnyPublicKey.deserialize (k.serialize ++ rest) = some (k, rest) := by
  obtain ⟨publicKey, variant⟩ := k
  simp only [AnyPublicKey.wellFormed, AnyPublicKey.pairedOk, PublicKeyInput.lenOk,
    Bool.and_eq_true] at h
  cases publicKey with
  | ed25519 key =>
    have hv : variant = 0 := by
      have := h.1
      simp only [AnyPublicKeyVariant.Ed25519, beq_iff_eq] at this
      exact this
    have hkey : key.length = ED25519_PUBLIC_KEY_LENGTH := by
      have := h.2
      simp only [Bool.and_eq_true, beq_iff_eq] at this
      exact this.1
    subst hv
    simp only [AnyPublicKey.serialize, PublicKeyInput.serialize, List.append_assoc,
      AnyPublicKey.deserialize]
    rw [deserializeUleb128AsU32_encode 0 (by simp [U32_MAX])]
    simp only [AnyPublicKeyVariant.Ed25519, if_pos rfl, Ed25519PublicKey.deserialize]
    rw [← hkey, readBytesN_append]
    simp
  | secp256k1 key =>
    have hv : variant = 1 := by
      have := h.1
      simp only [AnyPublicKeyVariant.Secp256k1, beq_iff_eq] at this
      exact this
    have hkey : key.length = SECP256K1_PUBLIC_KEY_LENGTH := by
      have := h.2
      simp only [Bool.and_eq_true, beq_iff_eq] at this
      exact this.1
    subst hv
    simp only [AnyPublicKey.serialize, PublicKeyInput.serialize, List.append_assoc,
      AnyPublicKey.deserialize]
    rw [deserializeUleb128AsU32_encode 1 (by simp [U32_MAX])]
    simp only [AnyPublicKeyVariant.Ed25519, AnyPublicKeyVariant.Secp256k1]
    norm_num
    simp only [Secp256k1PublicKey.deserialize]
    rw [← hkey, readBytesN_append]

/-- A well-formed `AnySignature` deserializes from its own serialization: the tag
written by `serialize` (derived from the concrete inner type) is mapped back by
`deserialize` to the same inner signature type and the same stored variant. -/
theorem anySignature_deserialize_serialize (s : AnySignature) (rest : List Nat)
    (h : s.wellFormed = true) :
    AnySignature.deserialize (s.serialize ++ rest) = some (s, rest) := by
  obtain ⟨signature, variant⟩ := s
  simp only [AnySignature.wellFormed, AnySignature.pairedOk, SignatureInput.lenOk,
    Bool.and_eq_true] at h
  cases signature with
  | ed25519 data =>
    have hv : variant = 0 := by
      have := h.1
      simp only [AnySignatureVariant.Ed25519, beq_iff_eq] at this
      exact this
    have hdata : data.length = ED25519_SIGNATURE_LENGTH := by
      have := h.2
      simp only [Bool.and_eq_true, beq_iff_eq] at this
      exact this.1
    subst hv
    simp only [AnySignature.serialize, SignatureInput.serialize, SigningSchemeInput.Ed25519,
      List.append_assoc, AnySignature.deserialize]
    rw [deserializeUleb128AsU32_encode 0 (by simp [U32_MAX])]
    simp only [AnySignatureVariant.Ed25519, if_pos rfl, Ed25519Signature.deserialize]
    rw [← hdata, readBytesN_append]
    simp
  | secp256k1 data =>
    have hv : variant = 1 := by
      have := h.1
      simp only [AnySignatureVariant.Secp256k1, beq_iff_eq] at this
      exact this
    have hdata : data.length = SECP256K1_SIGNATURE_LENGTH := by
      have := h.2
      simp only [Bool.and_eq_true, beq_iff_eq] at this
      exact this.1
    subst hv
    simp only [AnySignature.serialize, SignatureInput.serialize,
      SigningSchemeInput.Secp256k1Ecdsa, List.append_assoc, AnySignature.deserialize]
    rw [deserializeUleb128AsU32_encode 1 (by simp [U32_MAX])]
    simp only [AnySignatureVariant.Ed25519, AnySignatureVariant.Secp256k1]
    norm_num
    simp only [Secp256k1Signature.deserialize]
    rw [← hdata, readBytesN_append]

/-- Reading back a concatenation of element encodings, one element at a time. -/
theorem readElems_flatten {α : Type} (dec : List Nat → Option (α × List Nat))
    (ser : α → List Nat) : ∀ l : List α,
    (∀ a ∈ l, ∀ rest, dec (ser a ++ rest) = some (a, rest)) →
    ∀ rest, readElems dec l.length ((l.map ser).flatten ++ rest) = some (l, rest) := by
  intro l
  induction l with
  | nil => intro _ rest; rfl
  | cons a tl ih =>
    intro h rest
    have h1 := h a (List.mem_cons_self a tl) ((List.map ser tl).flatten ++ rest)
    have h2 := ih (fun x hx r => h x (List.mem_cons_of_mem a hx) r) rest
    simp only [List.map_cons, List.flatten_cons, List.length_cons, List.append_assoc,
      readElems, h1, h2]

/-- Normalizing an already-wrapped key is the identity. -/
theorem normalizePublicKey_any (keys : List AnyPublicKey) :
    (keys.map MultiKeyPublicKeyInput.any).map normalizePublicKey = keys := by
  induction keys with
  | nil => rfl
  | cons k tl ih => simp [normalizePublicKey, ih]

/-- Normalizing an already-wrapped signature is the identity. -/
theorem normalizeSignature_any (sigs : List AnySignature) :
    (sigs.map MultiKeySignatureInput.any).map normalizeSignature = sigs := by
  induction sigs with
  | nil => rfl
  | cons s tl ih => simp [normalizeSignature, ih]

/-- A well-formed `MultiKey` deserializes from its own serialization. -/
theorem multiKey_deserialize_serialize (m : MultiKey) (rest : List Nat)
    (h : m.wellFormed = true) :
    MultiKey.deserialize (m.serialize ++ rest) = some (m, rest) := by
  obtain ⟨keys, signaturesRequired⟩ := m
  simp only [MultiKey.wellFormed, Bool.and_eq_true, decide_eq_true_eq, List.all_eq_true] at h
  obtain ⟨⟨⟨⟨h1, h2⟩, h3⟩, h4⟩, h5⟩ := h
  simp only [MultiKey.serialize, MultiKey.deserialize, serializeU8, List.append_assoc]
  rw [deserializeUleb128AsU32_encode _ h4]
  have hre := readElems_flatten AnyPublicKey.deserialize AnyPublicKey.serialize keys
    (fun k hk r => anyPublicKey_deserialize_serialize k r (h5 k hk))
    (signaturesRequired :: rest)
  have hmod : signaturesRequired % 256 = signaturesRequired := Nat.mod_eq_of_lt (by omega)
  have hc1 : ¬ signaturesRequired < 1 := by omega
  have hc2 : ¬ (List.map MultiKeyPublicKeyInput.any keys).length < signaturesRequired := by
    simp only [List.length_map]
    omega
  simp only [hre, List.singleton_append, deserializeU8, hmod, MultiKey.create, hc1, if_false,
    hc2, normalizePublicKey_any]

/-- A well-formed `MultiKeySignature` deserializes from its own serialization. -/
theorem multiKeySignature_deserialize_serialize (ms : MultiKeySignature) (rest : List Nat)
    (h : ms.wellFormed = true) :
    MultiKeySignature.deserialize (ms.serialize ++ rest) = some (ms, rest) := by
  obtain ⟨signatures, bitmap⟩ := ms
  simp only [MultiKeySignature.wellFormed, Bool.and_eq_true, decide_eq_true_eq,
    beq_iff_eq, List.all_eq_true] at h
  obtain ⟨⟨⟨⟨hlen, hbytes⟩, hcount⟩, hmax⟩, hwf⟩ := h
  simp only [MultiKeySignature.serialize, MultiKeySignature.deserialize, List.append_assoc]
  rw [deserializeBytes_serializeBytes bitmap _ (by rw [hlen]; simp [BITMAP_LEN, U32_MAX])]
  have hre := readElems_flatten AnySignature.deserialize AnySignature.serialize signatures
    (fun s hs r => anySignature_deserialize_serialize s r (hwf s hs)) rest
  have hc1 : ¬ MAX_SIGNATURES_SUPPORTED <
      (List.map MultiKeySignatureInput.any signatures).length := by
    simp only [List.length_map]
    omega
  simp only [hcount, hre, MultiKeySignature.create, hc1, if_false, normalizeSignature_any,
    hlen, BITMAP_LEN, List.length_map, ne_eq]
  rw [if_neg (by omega)]
  simp [hcount]

/-! ## Popcount, invariant and truncation lemmas -/

set_option maxRecDepth 4000 in
/-- The SWAR `bitCount` agrees with the mathematical popcount on every byte. -/
theorem bitCount_eq_natPopCount : ∀ b, b < 256 → bitCount b = natPopCount b := by decide

/-- Folding an addition is adding the sum of the mapped list. -/
theorem foldl_add_eq_sum (f : Nat → Nat) : ∀ (l : List Nat) (init : Nat),
    l.foldl (fun acc x => acc + f x) init = init + (l.map f).sum := by
  intro l
  induction l with
  | nil => simp
  | cons a tl ih =>
    intro init
    simp only [List.foldl_cons, List.map_cons, List.sum_cons, ih]
    omega

/-- On byte-valued lists, mapping `bitCount` is mapping the mathematical popcount. -/
theorem map_bitCount_eq (l : List Nat) (h : ∀ x ∈ l, x ≤ 255) :
    l.map bitCount = l.map natPopCount := by
  induction l with
  | nil => rfl
  | cons a tl ih =>
    have ha : bitCount a = natPopCount a :=
      bitCount_eq_natPopCount a (by have := h a (List.mem_cons_self a tl); omega)
    simp only [List.map_cons, ha, ih (fun x hx => h x (List.mem_cons_of_mem a hx))]

/-- Every `MultiKeySignature` the constructor accepts satisfies the popcount
cross-check between its stored bitmap and its stored signatures. -/
theorem MultiKeySignature.create_ok_counts (signatures : List MultiKeySignatureInput)
    (bmIn : BitmapInput) (ms : MultiKeySignature)
    (h : MultiKeySignature.create signatures bmIn = .ok ms) :
    bitmapSignatureCount ms.bitmap = ms.signatures.length := by
  cases bmIn with
  | bits positions =>
    simp only [MultiKeySignature.create] at h
    split at h
    · exact absurd h (by simp)
    · split at h
      · exact absurd h (by simp)
      · split at h
        · exact absurd h (by simp)
        · rename_i hcnt
          simp only [Except.ok.injEq] at h
          subst h
          simpa using hcnt
  | raw bytes =>
    simp only [MultiKeySignature.create] at h
    split at h
    · exact absurd h (by simp)
    · split at h
      · exact absurd h (by simp)
      · rename_i bm heq
        split at h
        · exact absurd h (by simp)
        · rename_i hcnt
          simp only [Except.ok.injEq] at h
          subst h
          simpa using hcnt

/-- The signature reader fails on empty input whenever at least one signature is
expected. -/
theorem readElems_anySignature_nil (k : Nat) :
    readElems AnySignature.deserialize (k + 1) [] = none := by
  simp [readElems, AnySignature.deserialize, deserializeUleb128AsU32, uleb128DecodeCore]

/-- Every `AnyPublicKey` produced by `deserialize` satisfies the pairing invariant. -/
theorem anyPublicKey_deserialize_pairedOk (input : List Nat) (k : AnyPublicKey)
    (r : List Nat) (h : AnyPublicKey.deserialize input = some (k, r)) :
    k.pairedOk = true := by
  unfold AnyPublicKey.deserialize at h
  split at h
  · exact absurd h (by simp)
  · rename_i variantIndex r1
    split at h
    · rename_i hv
      unfold Ed25519PublicKey.deserialize at h
      split at h
      · rename_i bs r2 heq
        simp only [Option.some.injEq, Prod.mk.injEq] at h
        obtain ⟨hk, _⟩ := h
        subst hk
        split at heq
        · simp only [Option.some.injEq, Prod.mk.injEq] at heq
          obtain ⟨hbs, _⟩ := heq
          subst hbs
          simp [AnyPublicKey.pairedOk, hv]
        · exact absurd heq (by simp)
      · exact absurd h (by simp)
    · split at h
      · rename_i hv
        unfold Secp256k1PublicKey.deserialize at h
        split at h
        · rename_i bs r2 heq
          simp only [Option.some.injEq, Prod.mk.injEq] at h
          obtain ⟨hk, _⟩ := h
          subst hk
          split at heq
          · simp only [Option.some.injEq, Prod.mk.injEq] at heq
            obtain ⟨hbs, _⟩ := heq
            subst hbs
            simp [AnyPublicKey.pairedOk, hv]
          · exact absurd heq (by simp)
        · exact absurd h (by simp)
      · exact absurd h (by simp)

/-- Every `AnySignature` produced by `deserialize` satisfies the pairing invariant. -/
theorem anySignature_deserialize_pairedOk (input : List Nat) (s : AnySignature)
    (r : List Nat) (h : AnySignature.deserialize input = some (s, r)) :
    s.pairedOk = true := by
  unfold AnySignature.deserialize at h
  split at h
  · exact absurd h (by simp)
  · rename_i variantIndex r1
    split at h
    · rename_i hv
      unfold Ed25519Signature.deserialize at h
      split at h
      · rename_i bs r2 heq
        simp only [Option.some.injEq, Prod.mk.injEq] at h
        obtain ⟨hs, _⟩ := h
        subst hs
        split at heq
        · simp only [Option.some.injEq, Prod.mk.injEq] at heq
          obtain ⟨hbs, _⟩ := heq
          subst hbs
          simp [AnySignature.pairedOk, hv]
        · exact absurd heq (by simp)
      · exact absurd h (by simp)
    · split at h
      · rename_i hv
        unfold Secp256k1Signature.deserialize at h
        split at h
        · rename_i bs r2 heq
          simp only [Option.some.injEq, Prod.mk.injEq] at h
          obtain ⟨hs, _⟩ := h
          subst hs
          split at heq
          · simp only [Option.some.injEq, Prod.mk.injEq] at heq
            obtain ⟨hbs, _⟩ := heq
            subst hbs
            simp [AnySignature.pairedOk, hv]
          · exact absurd heq (by simp)
        · exact absurd h (by simp)
      · exact absurd h (by simp)

/-! ## Claim theorems -/

/-- C1: for every well-formed value of `AnyPublicKey`, `AnySignature`, `MultiKey` and
`MultiKeySignature` (over every supported scheme), deserializing the canonical
serialization yields the value back (with trailing input untouched); in particular
the tag `AnySignature.serialize` writes is mapped back by `AnySignature.deserialize`
to the same inner signature type. -/
theorem C1_roundtrip (k : AnyPublicKey) (s : AnySignature) (m : MultiKey)
    (ms : MultiKeySignature) (r1 r2 r3 r4 : List Nat)
    (hk : k.wellFormed = true) (hs : s.wellFormed = true)
    (hm : m.wellFormed = true) (hms : ms.wellFormed = true) :
    AnyPublicKey.deserialize (k.serialize ++ r1) = some (k, r1) ∧
    AnySignature.deserialize (s.serialize ++ r2) = some (s, r2) ∧
    MultiKey.deserialize (m.serialize ++ r3) = some (m, r3) ∧
    MultiKeySignature.deserialize (ms.serialize ++ r4) = some (ms, r4) :=
  ⟨anyPublicKey_deserialize_serialize k r1 hk,
   anySignature_deserialize_serialize s r2 hs,
   multiKey_deserialize_serialize m r3 hm,
   multiKeySignature_deserialize_serialize ms r4 hms⟩

set_option maxRecDepth 8000 in
/-- C1 witness: the round-trip evaluated at concrete values of all four types. -/
theorem C1_roundtrip_witness :
    AnyPublicKey.deserialize (edKeyA.serialize ++ []) = some (edKeyA, []) ∧
    AnySignature.deserialize (edSigA.serialize ++ []) = some (edSigA, []) ∧
    MultiKey.deserialize (multiKey3.serialize ++ []) = some (multiKey3, []) ∧
    MultiKeySignature.deserialize (msigA.serialize ++ []) = some (msigA, []) :=
  C1_roundtrip edKeyA edSigA multiKey3 msigA [] [] [] []
    (by decide) (by decide) (by decide) (by decide)

set_option maxRecDepth 8000 in
/-- C2 (code bug): `MultiKey.createBitmap` on a 3-key MultiKey *accepts* the
out-of-range position 3 and sets its bit, because the source compares the running
array position (`idx + 1`) against `publicKeys.length` instead of the bit value. -/
theorem C2_createBitmap_out_of_range :
    MultiKey.create (List.replicate 3 (.any edKeyA)) 2 = .ok multiKey3 ∧
    multiKey3.publicKeys.length = 3 ∧
    multiKey3.createBitmap [3] = .ok [16, 0, 0, 0] := by decide

/-- C3 counterexample: an `AnySignature` whose stored variant is Secp256k1 but whose
inner signature is Ed25519 (constructible through the public unchecked constructor)
serializes with the Ed25519 tag, not the stored variant. -/
theorem C3_counterexample :
    AnySignature.serialize illPairedSignature =
      uleb128Encode SigningSchemeInput.Ed25519 ++ List.replicate 64 0 ∧
    illPairedSignature.variant = AnySignatureVariant.Secp256k1 ∧
    SigningSchemeInput.Ed25519 ≠ AnySignatureVariant.Secp256k1 := by decide

/-- C3 (amended): for every `AnySignature` whose stored variant matches the concrete
type of the wrapped signature (as `fromSignature` and `deserialize` guarantee), the
tag `serialize` writes equals the stored variant discriminant. -/
theorem C3_amended_tag_from_stored_variant (s : AnySignature) (h : s.pairedOk = true) :
    AnySignature.serialize s = uleb128Encode s.variant ++ s.signature.serialize := by
  obtain ⟨signature, variant⟩ := s
  cases signature with
  | ed25519 data =>
    simp only [AnySignature.pairedOk, beq_iff_eq] at h
    subst h
    rfl
  | secp256k1 data =>
    simp only [AnySignature.pairedOk, beq_iff_eq] at h
    subst h
    rfl

/-- C3 witness: the amended statement evaluated at a concrete paired signature. -/
theorem C3_amended_tag_witness :
    AnySignature.serialize edSigA = uleb128Encode edSigA.variant ++ edSigA.signature.serialize :=
  C3_amended_tag_from_stored_variant edSigA (by decide)

/-- C4 counterexample: with a primitive verifier that accepts, `verifySignature`
returns `true` for a key and a signature whose stored variants differ (the signature
being ill-paired), because the source compares concrete types, not variants. -/
theorem C4_counterexample :
    AnyPublicKey.verifySignature (fun _ _ _ => true) (fun _ _ _ => true)
      edKeyA [] illPairedSignature = true ∧
    edKeyA.variant ≠ illPairedSignature.variant := by decide

/-- C4 (amended): for every key and signature satisfying the pairing invariant,
`verifySignature` returns `true` exactly when the two variants match and the
underlying primitive verification succeeds, and returns `false` (it cannot raise)
whenever the variants differ. -/
theorem C4_amended_verifySignature (edV secpV : List Nat → List Nat → List Nat → Bool)
    (k : AnyPublicKey) (message : List Nat) (s : AnySignature)
    (hk : k.pairedOk = true) (hs : s.pairedOk = true) :
    (AnyPublicKey.verifySignature edV secpV k message s = true ↔
      (k.variant = s.variant ∧ primVerify edV secpV k.publicKey message s.signature = true)) ∧
    (k.variant ≠ s.variant → AnyPublicKey.verifySignature edV secpV k message s = false) := by
  obtain ⟨publicKey, kv⟩ := k
  obtain ⟨signature, sv⟩ := s
  cases publicKey <;> cases signature
  all_goals
    simp only [AnyPublicKey.pairedOk, AnySignature.pairedOk, beq_iff_eq] at hk hs
  all_goals subst hk
  all_goals subst hs
  all_goals
    simp [AnyPublicKey.verifySignature, primVerify, AnyPublicKeyVariant.Ed25519,
      AnyPublicKeyVariant.Secp256k1, AnySignatureVariant.Ed25519,
      AnySignatureVariant.Secp256k1]

/-- C4 witness: the amended statement evaluated at concrete paired values with a
concrete accepting verifier. -/
theorem C4_amended_verifySignature_witness :
    (AnyPublicKey.verifySignature (fun _ _ _ => true) (fun _ _ _ => true)
        edKeyA [] edSigA = true ↔
      (edKeyA.variant = edSigA.variant ∧
        primVerify (fun _ _ _ => true) (fun _ _ _ => true)
          edKeyA.publicKey [] edSigA.signature = true)) ∧
    (edKeyA.variant ≠ edSigA.variant →
      AnyPublicKey.verifySignature (fun _ _ _ => true) (fun _ _ _ => true)
        edKeyA [] edSigA = false) :=
  C4_amended_verifySignature (fun _ _ _ => true) (fun _ _ _ => true)
    edKeyA [] edSigA (by decide) (by decide)

/-- C5 counterexample: the public unchecked `AnySignature` constructor yields a value
whose stored variant disagrees with the concrete type of the wrapped signature. -/
theorem C5_counterexample : AnySignature.pairedOk illPairedSignature = false := by decide

/-- C5 (amended): `fromPublicKey`, `fromSignature` and both deserializers always
establish the pairing invariant; only the public unchecked `AnySignature`
constructor can break it. -/
theorem C5_amended_pairing (pk : PublicKeyInput) (sg : SignatureInput)
    (input1 input2 r1 r2 : List Nat) (k : AnyPublicKey) (s : AnySignature)
    (h1 : AnyPublicKey.deserialize input1 = some (k, r1))
    (h2 : AnySignature.deserialize input2 = some (s, r2)) :
    (AnyPublicKey.fromPublicKey pk).pairedOk = true ∧
    (AnySignature.fromSignature sg).pairedOk = true ∧
    k.pairedOk = true ∧ s.pairedOk = true := by
  refine ⟨?_, ?_, anyPublicKey_deserialize_pairedOk input1 k r1 h1,
    anySignature_deserialize_pairedOk input2 s r2 h2⟩
  · cases pk <;> rfl
  · cases sg <;> rfl

set_option maxRecDepth 8000 in
/-- C5 witness: the amended statement evaluated at concrete construction paths. -/
theorem C5_amended_pairing_witness :
    (AnyPublicKey.fromPublicKey (.ed25519 (List.replicate 32 1))).pairedOk = true ∧
    (AnySignature.fromSignature (.ed25519 (List.replicate 64 2))).pairedOk = true ∧
    edKeyA.pairedOk = true ∧ edSigA.pairedOk = true :=
  C5_amended_pairing (.ed25519 (List.replicate 32 1)) (.ed25519 (List.replicate 64 2))
    edKeyA.serialize edSigA.serialize [] [] edKeyA edSigA (by decide) (by decide)

set_option maxRecDepth 8000 in
/-- C6 counterexample: with 33 signatures and the all-zero 4-byte bitmap the
popcount (0) differs from the signature count (33), yet construction fails with the
too-many-signatures error, not the signature-count-mismatch error. -/
theorem C6_counterexample :
    MultiKeySignature.create
        (List.replicate 33 (.prim (.ed25519 (List.replicate 64 0)))) (.raw [0, 0, 0, 0]) =
      .error ("The number of signatures cannot be greater than 32") ∧
    "The number of signatures cannot be greater than 32" ≠
      signatureCountMismatchMsg 0 33 := by decide

/-- C6 (amended): for at most 32 signatures and a raw 4-byte bitmap, construction
fails with the signature-count-mismatch error exactly when the bitmap's popcount
differs from the number of signatures; and every successfully constructed
`MultiKeySignature` (from any bitmap argument) satisfies
`popcount(bitmap) = len(signatures)`. -/
theorem C6_amended_crosscheck (signatures : List MultiKeySignatureInput) (bytes : List Nat)
    (bmIn : BitmapInput) (ms : MultiKeySignature)
    (hn : signatures.length ≤ 32) (hb : bytes.length = 4) :
    (MultiKeySignature.create signatures (.raw bytes) =
        .error (signatureCountMismatchMsg (bitmapSignatureCount bytes) signatures.length) ↔
      bitmapSignatureCount bytes ≠ signatures.length) ∧
    (MultiKeySignature.create signatures bmIn = .ok ms →
      bitmapSignatureCount ms.bitmap = ms.signatures.length) := by
  constructor
  · have hmax : ¬ MAX_SIGNATURES_SUPPORTED < signatures.length := by
      simp only [MAX_SIGNATURES_SUPPORTED, BITMAP_LEN]
      omega
    have hblen : ¬ bytes.length ≠ BITMAP_LEN := by simp [hb, BITMAP_LEN]
    simp only [MultiKeySignature.create, hmax, if_false, hblen, List.length_map]
    by_cases hc : bitmapSignatureCount bytes = signatures.length
    · simp [hc]
    · simp [hc]
  · exact fun h => MultiKeySignature.create_ok_counts signatures bmIn ms h

/-- C6 witness: the amended statement evaluated at concrete inputs (a mismatching
raw bitmap with an empty signature list, and a matching empty construction). -/
theorem C6_amended_crosscheck_witness :
    (MultiKeySignature.create [] (.raw [1, 0, 0, 0]) =
        .error (signatureCountMismatchMsg (bitmapSignatureCount [1, 0, 0, 0])
          (List.length ([] : List MultiKeySignatureInput))) ↔
      bitmapSignatureCount [1, 0, 0, 0] ≠ List.length ([] : List MultiKeySignatureInput)) ∧
    (MultiKeySignature.create [] (.raw [0, 0, 0, 0]) =
        .ok ⟨[], [0, 0, 0, 0]⟩ →
      bitmapSignatureCount (MultiKeySignature.mk [] [0, 0, 0, 0]).bitmap =
        (MultiKeySignature.mk [] [0, 0, 0, 0]).signatures.length) :=
  C6_amended_crosscheck [] [1, 0, 0, 0] (.raw [0, 0, 0, 0]) ⟨[], [0, 0, 0, 0]⟩
    (by decide) (by decide)

/-- C7: `MultiKeySignature.serialize` writes the bitmap as a length-prefixed byte
string followed by the concatenated signature encodings with no count field;
deserialization reads the bitmap, derives the count from its popcount, reads exactly
that many signatures, inverts the serialization, and fails (returns `none`) when the
input ends before the expected signatures are read. -/
theorem C7_serialization_format (ms : MultiKeySignature) (rest : List Nat)
    (h : ms.wellFormed = true) :
    MultiKeySignature.serialize ms =
      serializeBytes ms.bitmap ++ (ms.signatures.map AnySignature.serialize).flatten ∧
    MultiKeySignature.deserialize (MultiKeySignature.serialize ms ++ rest) = some (ms, rest) ∧
    (1 ≤ bitmapSignatureCount ms.bitmap →
      MultiKeySignature.deserialize (serializeBytes ms.bitmap) = none) := by
  refine ⟨rfl, multiKeySignature_deserialize_serialize ms rest h, ?_⟩
  intro hpos
  have hlen4 : ms.bitmap.length = BITMAP_LEN := by
    simp only [MultiKeySignature.wellFormed, Bool.and_eq_true, beq_iff_eq] at h
    exact h.1.1.1.1
  have hbytes : deserializeBytes (serializeBytes ms.bitmap) = some (ms.bitmap, []) := by
    have hd := deserializeBytes_serializeBytes ms.bitmap []
      (by rw [hlen4]; simp [BITMAP_LEN, U32_MAX])
    simpa using hd
  simp only [MultiKeySignature.deserialize, hbytes]
  obtain ⟨kk, hk⟩ : ∃ kk, bitmapSignatureCount ms.bitmap = kk + 1 :=
    ⟨bitmapSignatureCount ms.bitmap - 1, by omega⟩
  rw [hk, readElems_anySignature_nil]

set_option maxRecDepth 8000 in
/-- C7 witness: the format, round-trip and truncation behavior evaluated at a
concrete one-signature `MultiKeySignature`. -/
theorem C7_serialization_format_witness :
    MultiKeySignature.serialize msigA =
      serializeBytes msigA.bitmap ++ (msigA.signatures.map AnySignature.serialize).flatten ∧
    MultiKeySignature.deserialize (MultiKeySignature.serialize msigA ++ []) = some (msigA, []) ∧
    (1 ≤ bitmapSignatureCount msigA.bitmap →
      MultiKeySignature.deserialize (serializeBytes msigA.bitmap) = none) :=
  C7_serialization_format msigA [] (by decide)

set_option maxRecDepth 8000 in
/-- C8: encoding the index set {0, 2} with the bitmap codec of the 2-of-3 MultiKey
produces exactly the bitmap `0b10100000 00000000 00000000 00000000`
(`[160, 0, 0, 0]`), and deserializing a `MultiKeySignature` with that bitmap reads
exactly 2 signatures. -/
theorem C8_bitmap_scenario :
    multiKey3.signaturesRequired = 2 ∧ multiKey3.publicKeys.length = 3 ∧
    multiKey3.createBitmap [0, 2] = .ok [160, 0, 0, 0] ∧
    bitmapSignatureCount [160, 0, 0, 0] = 2 ∧
    MultiKeySignature.deserialize
        (serializeBytes [160, 0, 0, 0] ++ edSigA.serialize ++ edSigB.serialize) =
      some (⟨[edSigA, edSigB], [160, 0, 0, 0]⟩, []) := by decide

/-- C9: on every byte (0 ≤ b ≤ 255) the helper `bitCount` computes the number of set
bits, so the signature count the constructor and deserializer derive by summing
`bitCount` over the bitmap's bytes is the true popcount of the bitmap. -/
theorem C9_bitCount_popcount (b : Nat) (hb : b ≤ 255) (bitmap : List Nat)
    (hbm : ∀ x ∈ bitmap, x ≤ 255) :
    bitCount b = natPopCount b ∧
    bitmapSignatureCount bitmap = (bitmap.map natPopCount).sum := by
  constructor
  · exact bitCount_eq_natPopCount b (by omega)
  · unfold bitmapSignatureCount
    rw [foldl_add_eq_sum bitCount bitmap 0, map_bitCount_eq bitmap hbm]
    simp

set_option maxRecDepth 4000 in
/-- C9 witness: the popcount agreement evaluated at byte 255 and a concrete bitmap. -/
theorem C9_bitCount_popcount_witness :
    bitCount 255 = natPopCount 255 ∧
    bitmapSignatureCount [160, 0, 0, 0] = ([160, 0, 0, 0].map natPopCount).sum :=
  C9_bitCount_popcount 255 (by decide) [160, 0, 0, 0] (by decide)

/-- C10: constructing a `MultiKeySignature` from an empty signature list together
with the all-zero 4-byte bitmap, or equivalently an empty index list, succeeds — no
minimum signature count is enforced. -/
theorem C10_empty_signatures_ok :
    MultiKeySignature.create [] (.raw [0, 0, 0, 0]) = .ok ⟨[], [0, 0, 0, 0]⟩ ∧
    MultiKeySignature.create [] (.bits []) = .ok ⟨[], [0, 0, 0, 0]⟩ := by decide
